import Mathlib

/-!
Shallow embedding of the QualityMax GitHub Action (index.ts and the declared
API client surface) together with proofs about the claims of its design
specification.  Pure computations (script sanitization, report parsing,
result normalization, verdict logic) are translated as executable Lean
functions; the effectful orchestration (`runTestsLocally`, `run`) is
translated as explicit state passing over an oracle environment that fixes
the outcome of every external call, producing a trace of observable events
plus an `Except` value (errors model thrown JS exceptions).
-/

/-- JS `\w` character class: ASCII letters, digits and underscore. -/
def isWordChar (c : Char) : Bool :=
  ('a' ≤ c && c ≤ 'z') || ('A' ≤ c && c ≤ 'Z') || ('0' ≤ c && c ≤ '9') || c == '_'

/-- JS `\s` character class (ECMAScript WhiteSpace and LineTerminator set). -/
def isJsSpace (c : Char) : Bool :=
  c == ' ' || c == '\t' || c == '\n' || c.toNat == 11 || c.toNat == 12 || c == '\r' ||
  c.toNat == 0xa0 || c.toNat == 0x1680 || (0x2000 ≤ c.toNat && c.toNat ≤ 0x200a) ||
  c.toNat == 0x2028 || c.toNat == 0x2029 || c.toNat == 0x202f || c.toNat == 0x205f ||
  c.toNat == 0x3000 || c.toNat == 0xfeff

/-- `pat.isPrefix of text` test, written out to stay self-contained. -/
def listStartsWith : List Char → List Char → Bool
  | [], _ => true
  | _ :: _, [] => false
  | p :: ps, c :: cs => p == c && listStartsWith ps cs

/-- JS `a || b` on strings: the only falsy string is the empty one. -/
def jsOrStr (a b : String) : String := if a = "" then b else a

/-- The type-name alternation of the second sanitizer regex, in source order
(`Page|BrowserContext|Browser|Locator|FrameLocator|APIRequestContext`). -/
def typeNameList : List (List Char) :=
  ["Page", "BrowserContext", "Browser", "Locator", "FrameLocator",
   "APIRequestContext"].map String.toList

/-- JS `\b` right after a word character: next char absent or not a word char. -/
def boundaryAfter : List Char → Bool
  | [] => true
  | c :: _ => !isWordChar c

/-- Try the regex alternation in order; each branch must match literally and be
followed by a word boundary, as the regex engine backtracks through it. -/
def tryTypeNames : List (List Char) → List Char → Option (List Char)
  | [], _ => none
  | t :: ts, l =>
    if listStartsWith t l && boundaryAfter (l.drop t.length) then some (l.drop t.length)
    else tryTypeNames ts l

/-- Match of `(\w+)\s*:\s*(?:Page|BrowserContext|Browser|Locator|FrameLocator|APIRequestContext)\b`
anchored at the head of `l`; returns the `$1` capture and the remainder after
the match.  Greedy `\w+`/`\s*` need no backtracking here because `:` and the
type names start with non-word, non-space characters. -/
def matchAnnot (l : List Char) : Option (List Char × List Char) :=
  let w := l.takeWhile isWordChar
  if w.isEmpty then none
  else
    match (l.dropWhile isWordChar).dropWhile isJsSpace with
    | ':' :: r3 =>
      match tryTypeNames typeNameList (r3.dropWhile isJsSpace) with
      | some rest => some (w, rest)
      | none => none
    | _ => none

/-- Left-to-right global replace of the parameter-annotation regex by `$1`
(source line `code.replace(/(\w+)\s*:\s*(?:Page|...)\b/g, '$1')`).  Fuel is
one unit per scanned position; each step consumes at least one character, so
fuel `l.length` is never exhausted. -/
def replaceAnnotsAux : Nat → List Char → List Char
  | 0, l => l
  | _ + 1, [] => []
  | n + 1, c :: rest =>
    match matchAnnot (c :: rest) with
    | some (w, after) => w ++ replaceAnnotsAux n after
    | none => c :: replaceAnnotsAux n rest

/-- The annotation-stripping pass of the sanitizer. -/
def replaceAnnots (l : List Char) : List Char := replaceAnnotsAux l.length l

/-- Match of `import\s+type\s+\{[^}]*\}\s+from\s+['"][^'"]*['"];?\s*` anchored
at the head of `l`; returns the remainder after the match.  Every greedy
piece is followed by a literal it cannot itself contain, so the match is
deterministic. -/
def matchImportType (l : List Char) : Option (List Char) :=
  if listStartsWith "import".toList l then
    let r1 := l.drop 6
    if (r1.takeWhile isJsSpace).isEmpty then none
    else
      let r2 := r1.dropWhile isJsSpace
      if listStartsWith "type".toList r2 then
        let r3 := r2.drop 4
        if (r3.takeWhile isJsSpace).isEmpty then none
        else
          match r3.dropWhile isJsSpace with
          | '{' :: r5 =>
            match r5.dropWhile (fun c => !(c == '}')) with
            | '}' :: r7 =>
              if (r7.takeWhile isJsSpace).isEmpty then none
              else
                let r8 := r7.dropWhile isJsSpace
                if listStartsWith "from".toList r8 then
                  let r9 := r8.drop 4
                  if (r9.takeWhile isJsSpace).isEmpty then none
                  else
                    match r9.dropWhile isJsSpace with
                    | q :: r11 =>
                      if q == '\'' || q == '"' then
                        match r11.dropWhile (fun c => !(c == '\'' || c == '"')) with
                        | _ :: r13 =>
                          let r14 := match r13 with
                            | ';' :: r => r
                            | r => r
                          some (r14.dropWhile isJsSpace)
                        | [] => none
                      else none
                    | [] => none
                else none
            | _ => none
          | _ => none
      else none
  else none

/-- Left-to-right global replace of the type-only-import regex by the empty
string (source line `code.replace(/import\s+type\s+\{...\}...\s*/g, '')`). -/
def stripImportTypesAux : Nat → List Char → List Char
  | 0, l => l
  | _ + 1, [] => []
  | n + 1, c :: rest =>
    match matchImportType (c :: rest) with
    | some after => stripImportTypesAux n after
    | none => c :: stripImportTypesAux n rest

/-- The import-stripping pass of the sanitizer. -/
def stripImportTypes (l : List Char) : List Char := stripImportTypesAux l.length l

/-- Does the annotation regex match anywhere in `l`? -/
def hasAnnotMatch : List Char → Bool
  | [] => false
  | c :: rest => (matchAnnot (c :: rest)).isSome || hasAnnotMatch rest

/-- Does the type-only-import regex match anywhere in `l`? -/
def hasImportMatch : List Char → Bool
  | [] => false
  | c :: rest => (matchImportType (c :: rest)).isSome || hasImportMatch rest

/-- The script sanitization transform of `runTestsLocally` (source lines
214-219): first remove `import type {...} from '...'` declarations, then
strip the fixed set of parameter type annotations. -/
def sanitizeScript (code : String) : String :=
  String.mk (replaceAnnots (stripImportTypes code.toList))

/-- JS `parseInt(s, 10)`: optional sign, then the longest leading run of
decimal digits; `none` models `NaN`. -/
def jsParseInt (s : String) : Option Int :=
  let cs := s.toList
  let signed : Bool × List Char :=
    match cs with
    | '-' :: r => (true, r)
    | '+' :: r => (false, r)
    | r => (false, r)
  let digits := signed.2.takeWhile Char.isDigit
  if digits.isEmpty then none
  else
    let n : Nat := digits.foldl (fun acc c => acc * 10 + (c.toNat - '0'.toNat)) 0
    some (if signed.1 then -(n : Int) else (n : Int))

/-- JS `String.prototype.trim`. -/
def jsTrim (s : String) : String :=
  String.mk (((s.toList.dropWhile isJsSpace).reverse.dropWhile isJsSpace).reverse)

/-- Node `path.basename`: the component after the last `/`, ignoring trailing
slashes. -/
def basename (p : String) : String :=
  let r := p.toList.reverse.dropWhile (fun c => c == '/')
  if r.isEmpty then (if p.toList.isEmpty then "" else "/")
  else String.mk ((r.takeWhile (fun c => !(c == '/'))).reverse)

/-- An embedded test script of the trigger response (`id`, `name`, executable
source `code`). -/
structure EmbeddedScript where
  id : Int
  name : String
  code : String
deriving DecidableEq

/-- One attempt record of the Playwright JSON report
(`suites[].specs[].tests[].results[]`): duration in milliseconds and an
optional `error.message`. -/
structure RawAttempt where
  duration : ℚ
  errorMessage : Option String
deriving DecidableEq

/-- One `tests[]` entry of a reported spec. -/
structure RawTest where
  results : List RawAttempt
deriving DecidableEq

/-- One reported spec: its own `ok` flag, `title`, and attempts. -/
structure RawSpec where
  ok : Bool
  title : String
  tests : List RawTest
deriving DecidableEq

/-- One reported suite: the spec `file` it came from and its specs. -/
structure RawSuite where
  file : String
  specs : List RawSpec
deriving DecidableEq

/-- The parsed Playwright JSON report (`raw.suites || []` already applied). -/
structure RawReport where
  suites : List RawSuite
deriving DecidableEq

/-- Canonical per-test result entry (`IndividualTestResult`). -/
structure IndividualTestResult where
  test_id : Int
  test_name : String
  status : String
  duration_seconds : ℚ
  error_message : Option String
deriving DecidableEq

/-- Canonical execution result (`TestExecutionResults`).  Wall-clock
timestamp strings (`started_at`, `completed_at`) are outside the embedding. -/
structure TestExecutionResults where
  execution_id : String
  status : String
  result : String
  total_tests : Int
  passed_tests : Int
  failed_tests : Int
  skipped_tests : Int
  duration_seconds : ℚ
  browser : String
  base_url : Option String := none
  report_url : String
  tests : List IndividualTestResult
  summary_markdown : Option String := none
deriving DecidableEq

/-- The fields of the trigger response read by `run`; `scripts`/`test_files`
are `Option` so that JS truthiness (`undefined` vs `[]`) is preserved. -/
structure TriggerTestsResponse where
  execution_id : String
  run_locally : Bool
  scripts : Option (List EmbeddedScript)
  test_files : Option (List String)
  test_command : Option String
  estimated_duration_seconds : Option ℚ
deriving DecidableEq

/-- A project as returned by `getProjects`. -/
structure Project where
  id : String
  name : String
deriving DecidableEq

/-- The fields of `SeedTestsResponse` read by `run`. -/
structure SeedTestsResponse where
  tests_created : Int
  skipped : Int
  message : String
deriving DecidableEq

/-- The raw workflow input strings as returned by `core.getInput` (an unset
input is the empty string). -/
structure RawInputs where
  apiKey : String
  projectId : String
  projectName : String
  testSuite : String
  testIds : String
  baseUrl : String
  browser : String
  headless : String
  timeoutMinutes : String
  failOnTestFailure : String
  postPrComment : String
  mode : String
  autoDiscover : String
  maxSeedTests : String
  seedDescriptions : String
deriving DecidableEq

/-- Parsed action inputs (`ActionInputs`).  `mode` stays a string because the
source casts `core.getInput('mode') || 'run'` without validating it. -/
structure ActionInputs where
  apiKey : String
  projectId : String
  projectName : String
  testSuite : String
  testIds : Option (List (Option Int))
  baseUrl : Option String
  browser : String
  headless : Bool
  timeoutMinutes : Option Int
  failOnTestFailure : Bool
  postPrComment : Bool
  mode : String
  autoDiscover : Bool
  maxSeedTests : Option Int
  seedDescriptions : Option (List String)
deriving DecidableEq

/-- `getInputs` (source lines 28-53).  `core.getInput('api-key',
{required: true})` throws when the input is empty, hence the `Except`. -/
def getInputs (raw : RawInputs) : Except Unit ActionInputs :=
  if raw.apiKey = "" then .error ()
  else .ok {
    apiKey := raw.apiKey
    projectId := raw.projectId
    projectName := raw.projectName
    testSuite := jsOrStr raw.testSuite "all"
    testIds :=
      if raw.testIds = "" then none
      else some ((raw.testIds.splitOn ",").map (fun id => jsParseInt (jsTrim id)))
    baseUrl := if raw.baseUrl = "" then none else some raw.baseUrl
    browser := jsOrStr raw.browser "chromium"
    headless := raw.headless ≠ "false"
    timeoutMinutes := jsParseInt (jsOrStr raw.timeoutMinutes "30")
    failOnTestFailure := raw.failOnTestFailure ≠ "false"
    postPrComment := raw.postPrComment ≠ "false"
    mode := jsOrStr raw.mode "run"
    autoDiscover := raw.autoDiscover ≠ "false"
    maxSeedTests := jsParseInt (jsOrStr raw.maxSeedTests "3")
    seedDescriptions :=
      if raw.seedDescriptions = "" then none
      else some ((((raw.seedDescriptions.splitOn "\n").map jsTrim).filter (fun d => d ≠ ""))) }

/-- The `use` block of the generated Playwright configuration. -/
structure PlaywrightUse where
  headless : Bool
  viewportWidth : Nat
  viewportHeight : Nat
  screenshot : String
deriving DecidableEq

/-- One `projects` entry of the generated Playwright configuration. -/
structure PlaywrightProject where
  name : String
  browserName : String
deriving DecidableEq

/-- The generated Playwright configuration object. -/
structure PlaywrightConfig where
  testDir : String
  timeout : Nat
  retries : Nat
  reporterJsonOutputFile : String
  use : PlaywrightUse
  projects : List PlaywrightProject
deriving DecidableEq

/-- The object literal in the `playwright.config.js` template written by
`runTestsLocally` (source lines 191-205): `headless` is the literal `true`;
only `inputs.browser` is interpolated. -/
def playwrightConfig (inputs : ActionInputs) : PlaywrightConfig :=
  { testDir := "./tests"
    timeout := 60000
    retries := 0
    reporterJsonOutputFile := "results.json"
    use := { headless := true, viewportWidth := 1280, viewportHeight := 720,
             screenshot := "only-on-failure" }
    projects := [{ name := inputs.browser,
                   browserName :=
                     if inputs.browser = "chromium" then "chromium"
                     else if inputs.browser = "firefox" then "firefox"
                     else "webkit" }] }

/-- The deterministic file name written for a script (`test-${script.id}.spec.js`). -/
def scriptFileName (s : EmbeddedScript) : String :=
  "test-" ++ toString s.id ++ ".spec.js"

/-- `scriptMap.get`: the scripts are inserted in order with `Map.set`, so a
later script with the same generated file name overwrites an earlier one. -/
def mapGet (scripts : List EmbeddedScript) (k : String) : Option EmbeddedScript :=
  scripts.reverse.find? (fun s => scriptFileName s == k)

/-- First attempt of a spec: `spec.tests?.[0]?.results?.[0]`. -/
def firstAttempt (spec : RawSpec) : Option RawAttempt :=
  spec.tests.head?.bind (fun t => t.results.head?)

/-- One parsed entry of the report loop (source lines 267-285): classification
comes solely from `spec.ok`; identity is recovered from the suite file's
basename via the script map; `||` falls through empty strings and `0`. -/
def specEntry (scripts : List EmbeddedScript) (suite : RawSuite) (spec : RawSpec) :
    IndividualTestResult :=
  let fileName := basename (jsOrStr suite.file "")
  let script := mapGet scripts fileName
  { test_id := (script.map (fun s => s.id)).getD 0
    test_name := jsOrStr ((script.map (fun s => s.name)).getD "")
      (jsOrStr spec.title fileName)
    status := if spec.ok then "passed" else "failed"
    duration_seconds := (((firstAttempt spec).map (fun a => a.duration)).getD 0) / 1000
    error_message := (firstAttempt spec).bind (fun a => a.errorMessage) }

/-- The report-parsing loop (source lines 255-290), producing the ordered
individual results derived from the report. -/
def parseReport (raw : RawReport) (scripts : List EmbeddedScript) :
    List IndividualTestResult :=
  (raw.suites.map (fun suite => suite.specs.map (specEntry scripts suite))).flatten

/-- Count of parsed entries with a given status. -/
def countStatus (rs : List IndividualTestResult) (st : String) : Nat :=
  rs.countP (fun r => r.status == st)

/-- The exit-code-only fallback entries (source lines 299-307). -/
def fallbackResults (scripts : List EmbeddedScript) (exitCode : Nat) (d : ℚ) :
    List IndividualTestResult :=
  scripts.map (fun s =>
    { test_id := s.id
      test_name := s.name
      status := if exitCode = 0 then "passed" else "failed"
      duration_seconds := d / (scripts.length : ℚ)
      error_message := if exitCode ≠ 0 then some "Test execution failed" else none })

/-- Observable effects of one action invocation: filesystem and subprocess
operations of the sandbox, CI-surface outputs, and remote-service calls. -/
inductive Event where
  | mkTmpDir
  | writeConfig (cfg : PlaywrightConfig)
  | writeScript (fileName : String) (content : String)
  | writePackageJson
  | npmInstall
  | pwInstall
  | runPlaywright
  | rmTmpDir
  | rmTmpDirFailed
  | reportResults (eid : String) (verdict : String) (passed failed total : Int)
  | seedOutputs
  | setOutputs
  | jobSummary
  | prComment
  | cancelAttempt (ok : Bool)
  | setFailed
deriving DecidableEq

/-- Oracle outcomes for the external calls made inside `runTestsLocally`:
whether each install subprocess succeeds, whether the test subprocess throws
and its exit code, the report file (`none` absent, `some none` present but
unparsable, `some (some r)` parsed), whether `reportResults` succeeds,
whether `rmSync` succeeds, and the measured wall-clock duration. -/
structure LocalEnv where
  npmInstallOk : Bool
  pwInstallOk : Bool
  execThrows : Bool
  execExitCode : Nat
  reportFile : Option (Option RawReport)
  reportResultsOk : Bool
  rmOk : Bool
  durationSeconds : ℚ
deriving DecidableEq

/-- The individual results derived from a report file value: empty when the
file is absent, unparsable, or parses to no specs. -/
def reportDerived (tr : TriggerTestsResponse) (rf : Option (Option RawReport)) :
    List IndividualTestResult :=
  match rf with
  | some (some raw) => parseReport raw (tr.scripts.getD [])
  | _ => []

/-- The individual results derived from the report file of the environment
(source lines 261-290). -/
def derivedResults (tr : TriggerTestsResponse) (env : LocalEnv) :
    List IndividualTestResult :=
  reportDerived tr env.reportFile

/-- `runTestsLocally` (source lines 175-343) over the oracle environment:
returns the event trace and either the canonical result or a thrown error.
Install failures propagate; the test subprocess is wrapped in try/catch
(exit code 1 on throw); `rmSync` failures are swallowed; a `reportResults`
failure propagates after cleanup. -/
def runTestsLocallyModel (tr : TriggerTestsResponse) (env : LocalEnv)
    (inputs : ActionInputs) : List Event × Except Unit TestExecutionResults :=
  let scripts := tr.scripts.getD []
  let eid := tr.execution_id
  let pre : List Event :=
    [Event.mkTmpDir, Event.writeConfig (playwrightConfig inputs)] ++
    scripts.map (fun s => Event.writeScript (scriptFileName s) (sanitizeScript s.code)) ++
    [Event.writePackageJson]
  if !env.npmInstallOk then (pre ++ [Event.npmInstall], .error ())
  else if !env.pwInstallOk then (pre ++ [Event.npmInstall, Event.pwInstall], .error ())
  else
    let pre2 := pre ++ [Event.npmInstall, Event.pwInstall, Event.runPlaywright]
    let exitCode := if env.execThrows then 1 else env.execExitCode
    let parsed := derivedResults tr env
    let totalTests : Int := scripts.length
    let passedTests : Int :=
      if parsed.length = 0 then (if exitCode = 0 then totalTests else 0)
      else countStatus parsed "passed"
    let failedTests : Int :=
      if parsed.length = 0 then (if exitCode = 0 then 0 else totalTests)
      else countStatus parsed "failed"
    let testResults :=
      if parsed.length = 0 then fallbackResults scripts exitCode env.durationSeconds
      else parsed
    let skippedTests : Int := max (totalTests - passedTests - failedTests) 0
    let overallResult := if 0 < passedTests ∧ failedTests = 0 then "passed" else "failed"
    let overallStatus := if overallResult = "passed" then "completed" else "failed"
    let cleanupEv := if env.rmOk then Event.rmTmpDir else Event.rmTmpDirFailed
    let trace := pre2 ++
      [cleanupEv, Event.reportResults eid overallResult passedTests failedTests totalTests]
    if !env.reportResultsOk then (trace, .error ())
    else (trace, .ok {
      execution_id := eid
      status := overallStatus
      result := overallResult
      total_tests := totalTests
      passed_tests := passedTests
      failed_tests := failedTests
      skipped_tests := skippedTests
      duration_seconds := env.durationSeconds
      browser := inputs.browser
      report_url := "https://app.qamax.co/results/" ++ eid
      tests := testResults })

/-- The repository-test-files local result (source lines 523-537): counts
are split wholesale by the subprocess exit code and `skipped_tests` is 0. -/
def repoResults (eid : String) (inputs : ActionInputs) (testFiles : List String)
    (exitCode : Nat) (d : ℚ) : TestExecutionResults :=
  { execution_id := eid
    status := if exitCode = 0 then "completed" else "failed"
    result := if exitCode = 0 then "passed" else "failed"
    total_tests := testFiles.length
    passed_tests := if exitCode = 0 then testFiles.length else 0
    failed_tests := if exitCode ≠ 0 then testFiles.length else 0
    skipped_tests := 0
    duration_seconds := d
    browser := inputs.browser
    report_url := "https://app.qamax.co/results/" ++ eid
    tests := [] }

/-- `executionFailed` (source lines 565-570). -/
def executionFailed (r : TestExecutionResults) : Bool :=
  (r.result == "failed") || (r.status == "failed") || (r.status == "cancelled") ||
  (r.status == "timeout") || ((r.passed_tests == 0) && decide (0 < r.total_tests))

/-- The fail-on-failure branch (source lines 573-576). -/
def verdictEvents (inputs : ActionInputs) (r : TestExecutionResults) : List Event :=
  if executionFailed r && inputs.failOnTestFailure then [Event.setFailed] else []

deriving instance DecidableEq for Except

/-- Oracle outcomes for all external calls of the outer orchestration `run`. -/
structure RunEnv where
  raw : RawInputs
  validateOk : Except Unit Bool
  projectsR : Except Unit (List Project)
  resolveProjectR : Except Unit (Option String)
  seedR : Except Unit SeedTestsResponse
  triggerR : Except Unit TriggerTestsResponse
  localEnv : LocalEnv
  repoExecThrows : Bool
  repoExitCode : Nat
  repoDuration : ℚ
  waitR : Except Unit TestExecutionResults
  jobSummaryOk : Bool
  cancelOk : Bool
deriving DecidableEq

/-- Project-id resolution (source lines 401-445): explicit id, else
case-insensitive name match with repository-linkage fallback, else
repository auto-detection; unresolvable cases throw. -/
def resolvePid (env : RunEnv) (inputs : ActionInputs) : Except Unit String :=
  if inputs.projectId ≠ "" then .ok inputs.projectId
  else if inputs.projectName ≠ "" then
    match env.projectsR with
    | .error _ => .error ()
    | .ok projects =>
      match projects.find? (fun p => p.name.toLower == inputs.projectName.toLower) with
      | some m => .ok m.id
      | none =>
        match env.resolveProjectR with
        | .error _ => .error ()
        | .ok (some f) => .ok f
        | .ok none => .error ()
  else
    match env.resolveProjectR with
    | .error _ => .error ()
    | .ok (some d) => .ok d
    | .ok none => .error ()

/-- The three execution paths after a successful trigger (source lines
503-542): embedded scripts locally, repository test files locally (an empty
`test_files` array is truthy in JS), or remote polling. -/
def execPhase (env : RunEnv) (inputs : ActionInputs) (tr : TriggerTestsResponse) :
    List Event × Except Unit TestExecutionResults :=
  if tr.run_locally && decide (0 < (tr.scripts.getD []).length) then
    runTestsLocallyModel tr env.localEnv inputs
  else if tr.run_locally && tr.test_files.isSome then
    let exitCode := if env.repoExecThrows then 1 else env.repoExitCode
    ([Event.runPlaywright],
     .ok (repoResults tr.execution_id inputs (tr.test_files.getD []) exitCode
       env.repoDuration))
  else
    match env.waitR with
    | .error _ => ([], .error ())
    | .ok r => ([], .ok r)

/-- The body of `run` inside its try block (source lines 377-579): an error
value carries the execution id known at the moment of the throw (`none`
before the trigger response arrives). -/
def runBody (env : RunEnv) : List Event × Except (Option String) Unit :=
  match getInputs env.raw with
  | .error _ => ([], .error none)
  | .ok inputs =>
    match env.validateOk with
    | .error _ => ([], .error none)
    | .ok false => ([], .error none)
    | .ok true =>
      match resolvePid env inputs with
      | .error _ => ([], .error none)
      | .ok _pid =>
        if inputs.mode = "seed" then
          match env.seedR with
          | .error _ => ([], .error none)
          | .ok s =>
            ([Event.seedOutputs] ++
              (if s.tests_created = 0 ∧ s.skipped = 0 then [Event.setFailed] else []),
             .ok ())
        else
          match env.triggerR with
          | .error _ => ([], .error none)
          | .ok tr =>
            match execPhase env inputs tr with
            | (evs, .error _) => (evs, .error (some tr.execution_id))
            | (evs, .ok r) =>
              let evs2 := evs ++ [Event.setOutputs]
              if env.jobSummaryOk then
                (evs2 ++ [Event.jobSummary] ++
                  (if inputs.postPrComment then [Event.prComment] else []) ++
                  verdictEvents inputs r, .ok ())
              else
                (evs2, .error (some tr.execution_id))

/-- `run` with its catch clause (source lines 580-595): on a thrown error, a
best-effort cancel is attempted iff an execution id is known (its own
failure is recorded but changes nothing), then a single `setFailed`
surfaces the failure.  The boolean is true iff the catch clause ran. -/
def run (env : RunEnv) : List Event × Bool :=
  match runBody env with
  | (evs, .ok _) => (evs, false)
  | (evs, .error none) => (evs ++ [Event.setFailed], true)
  | (evs, .error (some _)) =>
    (evs ++ [Event.cancelAttempt env.cancelOk, Event.setFailed], true)

/-- Is this event a sandbox-removal attempt (successful or swallowed)? -/
def isRmAttempt : Event → Bool
  | Event.rmTmpDir => true
  | Event.rmTmpDirFailed => true
  | _ => false

/-- Is this event a successful sandbox removal? -/
def isRmSuccess : Event → Bool
  | Event.rmTmpDir => true
  | _ => false

/-- Is this event a `reportResults` call? -/
def isReportCall : Event → Bool
  | Event.reportResults _ _ _ _ _ => true
  | _ => false

/-- Is this event a `cancelExecution` call? -/
def isCancelCall : Event → Bool
  | Event.cancelAttempt _ => true
  | _ => false

/-- Is this event a `core.setFailed` call? -/
def isSetFailed : Event → Bool
  | Event.setFailed => true
  | _ => false

/-- Number of trace events satisfying `p`. -/
def countEvent (evs : List Event) (p : Event → Bool) : Nat := evs.countP p

/-- Raw workflow inputs used by the concrete scenarios: only the api key and
project id are set, everything else takes its default. -/
def sampleRaw : RawInputs :=
  { apiKey := "k", projectId := "p1", projectName := "", testSuite := "",
    testIds := "", baseUrl := "", browser := "", headless := "",
    timeoutMinutes := "", failOnTestFailure := "", postPrComment := "",
    mode := "", autoDiscover := "", maxSeedTests := "", seedDescriptions := "" }

/-- The parsed form of `sampleRaw`. -/
def sampleInputs : ActionInputs :=
  { apiKey := "k", projectId := "p1", projectName := "", testSuite := "all",
    testIds := none, baseUrl := none, browser := "chromium", headless := true,
    timeoutMinutes := some 30, failOnTestFailure := true, postPrComment := true,
    mode := "run", autoDiscover := true, maxSeedTests := some 3,
    seedDescriptions := none }

/-- A single embedded script. -/
def scriptA : EmbeddedScript := { id := 1, name := "login works", code := "" }

/-- A reported spec with `ok = true` and no attempts. -/
def specOkBare : RawSpec := { ok := true, title := "t", tests := [] }

/-- A report whose one suite (for the single script file) holds two passing
specs: the embedded script defined two tests. -/
def reportTwoSpecs : RawReport :=
  { suites := [{ file := "test-1.spec.js", specs := [specOkBare, specOkBare] }] }

/-- Trigger response delivering exactly one embedded script. -/
def trOneScript : TriggerTestsResponse :=
  { execution_id := "e1", run_locally := true, scripts := some [scriptA],
    test_files := none, test_command := none, estimated_duration_seconds := none }

/-- Local environment: everything succeeds, exit code 0, and the report
parses to `reportTwoSpecs`. -/
def envTwoSpecs : LocalEnv :=
  { npmInstallOk := true, pwInstallOk := true, execThrows := false,
    execExitCode := 0, reportFile := some (some reportTwoSpecs),
    reportResultsOk := true, rmOk := true, durationSeconds := 0 }

/-- Local environment in which `npm install` throws. -/
def envNpmFails : LocalEnv :=
  { npmInstallOk := false, pwInstallOk := true, execThrows := false,
    execExitCode := 0, reportFile := none, reportResultsOk := true,
    rmOk := true, durationSeconds := 0 }

/-- Local environment: report file absent, test subprocess exits 0. -/
def envNoReportPass : LocalEnv :=
  { npmInstallOk := true, pwInstallOk := true, execThrows := false,
    execExitCode := 0, reportFile := none, reportResultsOk := true,
    rmOk := true, durationSeconds := 10 }

/-- Local environment: report file present but unparsable, subprocess exits 7. -/
def envBadReportFail : LocalEnv :=
  { npmInstallOk := true, pwInstallOk := true, execThrows := false,
    execExitCode := 7, reportFile := some none, reportResultsOk := true,
    rmOk := true, durationSeconds := 10 }

/-- Two embedded scripts for the fallback scenarios. -/
def scriptB : EmbeddedScript := { id := 2, name := "checkout works", code := "" }

/-- Trigger response delivering two embedded scripts. -/
def trTwoScripts : TriggerTestsResponse :=
  { execution_id := "e4", run_locally := true, scripts := some [scriptA, scriptB],
    test_files := none, test_command := none, estimated_duration_seconds := none }

/-- Trigger response choosing the repository-test-files path with an empty
file list (an empty array is truthy in JS, so the branch is taken). -/
def trRepoEmpty : TriggerTestsResponse :=
  { execution_id := "e2", run_locally := true, scripts := none,
    test_files := some [], test_command := some "npx playwright test",
    estimated_duration_seconds := none }

/-- Outer-orchestration environment for the repository-files scenario:
every call up to the trigger succeeds and the repo subprocess exits 0. -/
def runEnvRepoEmpty : RunEnv :=
  { raw := sampleRaw, validateOk := .ok true, projectsR := .ok [],
    resolveProjectR := .ok none, seedR := .error (), triggerR := .ok trRepoEmpty,
    localEnv := envNoReportPass, repoExecThrows := false, repoExitCode := 0,
    repoDuration := 3, waitR := .error (), jobSummaryOk := true, cancelOk := true }

/-- Outer-orchestration environment in which remote polling throws after the
execution id became known. -/
def runEnvWaitFails : RunEnv :=
  { raw := sampleRaw, validateOk := .ok true, projectsR := .ok [],
    resolveProjectR := .ok none, seedR := .error (),
    triggerR := .ok { execution_id := "e5", run_locally := false, scripts := none,
                      test_files := none, test_command := none,
                      estimated_duration_seconds := none },
    localEnv := envNoReportPass, repoExecThrows := false, repoExitCode := 0,
    repoDuration := 0, waitR := .error (), jobSummaryOk := true, cancelOk := true }

/-- Outer-orchestration environment in which the api-key validation call
throws before any execution id exists. -/
def runEnvValidateFails : RunEnv :=
  { runEnvWaitFails with validateOk := .error () }

/-- Three embedded scripts for the report-classification scenario. -/
def s3a : EmbeddedScript := { id := 1, name := "first", code := "" }

/-- Second script of the report-classification scenario. -/
def s3b : EmbeddedScript := { id := 2, name := "second", code := "" }

/-- Third script of the report-classification scenario. -/
def s3c : EmbeddedScript := { id := 3, name := "third", code := "" }

/-- A passing first attempt of 1000 ms. -/
def attemptPass : RawAttempt := { duration := 1000, errorMessage := none }

/-- A failing first attempt of 1500 ms with an error message. -/
def attemptFail : RawAttempt := { duration := 1500, errorMessage := some "boom" }

/-- A report with three specs over the three script files: two `ok = true`,
one `ok = false`. -/
def reportThree : RawReport :=
  { suites := [
      { file := "test-1.spec.js",
        specs := [{ ok := true, title := "first", tests := [{ results := [attemptPass] }] }] },
      { file := "test-2.spec.js",
        specs := [{ ok := false, title := "second", tests := [{ results := [attemptFail] }] }] },
      { file := "test-3.spec.js",
        specs := [{ ok := true, title := "third", tests := [{ results := [attemptPass] }] }] }] }

/-- Trigger response delivering the three scripts of `reportThree`. -/
def trThreeScripts : TriggerTestsResponse :=
  { execution_id := "e6", run_locally := true, scripts := some [s3a, s3b, s3c],
    test_files := none, test_command := none, estimated_duration_seconds := none }

/-- Local environment whose report parses to `reportThree` (the subprocess
exits 1 because one test failed). -/
def envThree : LocalEnv :=
  { npmInstallOk := true, pwInstallOk := true, execThrows := false,
    execExitCode := 1, reportFile := some (some reportThree),
    reportResultsOk := true, rmOk := true, durationSeconds := 10 }

/-- A canonical result whose `result` field is `passed` and `status` is
`completed` while no test passed out of two. -/
def resultPassedZero : TestExecutionResults :=
  { execution_id := "e7", status := "completed", result := "passed",
    total_tests := 2, passed_tests := 0, failed_tests := 0, skipped_tests := 2,
    duration_seconds := 0, browser := "chromium", report_url := "u", tests := [] }

/-- Trigger response delivering an empty embedded-script list (the embedded
branch of `runTestsLocally` handles it; `run` itself would not select it). -/
def trNoScripts : TriggerTestsResponse :=
  { execution_id := "e0", run_locally := true, scripts := some [],
    test_files := none, test_command := none, estimated_duration_seconds := none }

/-- Local environment: everything succeeds, no report, zero duration. -/
def envZero : LocalEnv :=
  { npmInstallOk := true, pwInstallOk := true, execThrows := false,
    execExitCode := 0, reportFile := none, reportResultsOk := true,
    rmOk := true, durationSeconds := 0 }

/-- The canonical result of the zero-script local run in `envZero`. -/
def resZero : TestExecutionResults :=
  { execution_id := "e0", status := "failed", result := "failed",
    total_tests := 0, passed_tests := 0, failed_tests := 0, skipped_tests := 0,
    duration_seconds := 0, browser := "chromium",
    report_url := "https://app.qamax.co/results/e0", tests := [] }

/-- The four count fields of a canonical result, in the order
(total, passed, failed, skipped). -/
def countsOf (r : TestExecutionResults) : Int × Int × Int × Int :=
  (r.total_tests, r.passed_tests, r.failed_tests, r.skipped_tests)

/-- The verdict and lifecycle fields of a canonical result. -/
def verdictOf (r : TestExecutionResults) : String × String := (r.result, r.status)

/-- Identity, classification and error message of each individual result. -/
def testsSummary (r : TestExecutionResults) :
    List (Int × String × String × Option String) :=
  r.tests.map (fun t => (t.test_id, t.test_name, t.status, t.error_message))

/-- No script-file write event satisfies a predicate that rejects writes. -/
lemma countP_map_writeScript (p : Event → Bool)
    (hfalse : ∀ n c, p (Event.writeScript n c) = false) (l : List EmbeddedScript) :
    List.countP p (l.map (fun s =>
      Event.writeScript (scriptFileName s) (sanitizeScript s.code))) = 0 := by
  induction l with
  | nil => rfl
  | cons a l ih => simp [List.countP_cons, hfalse, ih]

/-- Rebuilding a string from its character list is the identity. -/
lemma stringMk_toList (s : String) : String.mk s.toList = s := by
  cases s
  rfl

/-- Every canonical result the embedded-script run returns has its skipped
count clamped from the subtraction and its verdict and status derived by the
two source rules (lines 310-314). -/
lemma runLocal_ok_shape {tr : TriggerTestsResponse} {env : LocalEnv}
    {i : ActionInputs} {res : TestExecutionResults}
    (h : (runTestsLocallyModel tr env i).2 = .ok res) :
    res.skipped_tests = max (res.total_tests - res.passed_tests - res.failed_tests) 0 ∧
    res.result = (if 0 < res.passed_tests ∧ res.failed_tests = 0 then "passed" else "failed") ∧
    res.status = (if res.result = "passed" then "completed" else "failed") := by
  simp only [runTestsLocallyModel] at h
  split at h
  · simp at h
  · split at h
    · simp at h
    · split at h
      · simp at h
      · simp only [Except.ok.injEq] at h
        subst h
        refine ⟨rfl, rfl, rfl⟩

/-- When no individual results were derived from the report, the counts and
the individual entries come from the exit-code fallback (lines 292-308). -/
lemma runLocal_ok_fallback_counts {tr : TriggerTestsResponse} {env : LocalEnv}
    {i : ActionInputs} {res : TestExecutionResults}
    (hd : derivedResults tr env = [])
    (h : (runTestsLocallyModel tr env i).2 = .ok res) :
    res.total_tests = ((tr.scripts.getD []).length : Int) ∧
    (((if env.execThrows then 1 else env.execExitCode) = 0) →
      res.passed_tests = res.total_tests ∧ res.failed_tests = 0 ∧
      res.tests = fallbackResults (tr.scripts.getD [])
        (if env.execThrows then 1 else env.execExitCode) env.durationSeconds) ∧
    (((if env.execThrows then 1 else env.execExitCode) ≠ 0) →
      res.passed_tests = 0 ∧ res.failed_tests = res.total_tests ∧
      res.tests = fallbackResults (tr.scripts.getD [])
        (if env.execThrows then 1 else env.execExitCode) env.durationSeconds) := by
  simp only [runTestsLocallyModel] at h
  split at h
  · simp at h
  · split at h
    · simp at h
    · split at h
      · simp at h
      · simp only [Except.ok.injEq] at h
        subst h
        refine ⟨rfl, fun hec => ?_, fun hec => ?_⟩
        · simp [hd, hec]
        · simp [hd, hec]

/-- A local run that returns a result got past both install subprocesses. -/
lemma runLocal_ok_installs {tr : TriggerTestsResponse} {env : LocalEnv}
    {i : ActionInputs} {res : TestExecutionResults}
    (h : (runTestsLocallyModel tr env i).2 = .ok res) :
    env.npmInstallOk = true ∧ env.pwInstallOk = true := by
  simp only [runTestsLocallyModel] at h
  split at h
  · simp at h
  · rename_i hn
    split at h
    · simp at h
    · rename_i hp
      simp at hn hp
      exact ⟨hn, hp⟩

/-- When the installs and the final report call succeed, the local run
returns a result. -/
lemma runLocal_ok_exists (tr : TriggerTestsResponse) (env : LocalEnv)
    (i : ActionInputs)
    (h1 : env.npmInstallOk = true) (h2 : env.pwInstallOk = true)
    (h3 : env.reportResultsOk = true) :
    ∃ res, (runTestsLocallyModel tr env i).2 = .ok res := by
  simp only [runTestsLocallyModel, h1, h2, h3, Bool.not_true, if_false]
  exact ⟨_, rfl⟩

/-- On every path that survives both installs, exactly one sandbox-removal
attempt and exactly one `reportResults` call appear in the trace. -/
lemma runLocal_trace_installOk {tr : TriggerTestsResponse} {env : LocalEnv}
    {i : ActionInputs}
    (h1 : env.npmInstallOk = true) (h2 : env.pwInstallOk = true) :
    countEvent (runTestsLocallyModel tr env i).1 isRmAttempt = 1 ∧
    countEvent (runTestsLocallyModel tr env i).1 isReportCall = 1 := by
  simp only [runTestsLocallyModel, h1, h2, Bool.not_true, if_false]
  cases hr : env.reportResultsOk <;>
  cases hrm : env.rmOk <;>
    simp [countEvent, List.countP_append, List.countP_cons, isRmAttempt, isReportCall,
      countP_map_writeScript]

/-- The outcome of a local run never depends on whether `rmSync` succeeds:
removal failures are swallowed. -/
lemma runLocal_result_rmOk_irrel (tr : TriggerTestsResponse) (env : LocalEnv)
    (i : ActionInputs) (b : Bool) :
    (runTestsLocallyModel tr { env with rmOk := b } i).2 =
      (runTestsLocallyModel tr env i).2 := by
  cases h1 : env.npmInstallOk <;> cases h2 : env.pwInstallOk <;>
  cases h3 : env.reportResultsOk <;>
    simp only [runTestsLocallyModel, derivedResults, reportDerived, h1, h2, h3] <;> rfl

/-- A local run never calls `setFailed` or `cancelExecution`, and calls
`reportResults` at most once. -/
lemma runLocal_trace_noSetFailed_noCancel (tr : TriggerTestsResponse)
    (env : LocalEnv) (i : ActionInputs) :
    countEvent (runTestsLocallyModel tr env i).1 isSetFailed = 0 ∧
    countEvent (runTestsLocallyModel tr env i).1 isCancelCall = 0 ∧
    countEvent (runTestsLocallyModel tr env i).1 isReportCall ≤ 1 := by
  simp only [runTestsLocallyModel]
  cases env.npmInstallOk <;> cases env.pwInstallOk <;>
  cases env.reportResultsOk <;> cases env.rmOk <;>
    simp [countEvent, List.countP_append, List.countP_cons, isSetFailed, isCancelCall,
      isReportCall, countP_map_writeScript, Function.comp_def]

/-- No execution path emits `setFailed` or `cancelExecution` events. -/
lemma execPhase_noSetFailed_noCancel (env : RunEnv) (i : ActionInputs)
    (tr : TriggerTestsResponse) :
    countEvent (execPhase env i tr).1 isSetFailed = 0 ∧
    countEvent (execPhase env i tr).1 isCancelCall = 0 := by
  unfold execPhase
  split
  · exact ⟨(runLocal_trace_noSetFailed_noCancel tr env.localEnv i).1,
      (runLocal_trace_noSetFailed_noCancel tr env.localEnv i).2.1⟩
  · split
    · simp [countEvent, isSetFailed, isCancelCall]
    · cases env.waitR <;> simp [countEvent]

/-- Outside the embedded-script branch no `reportResults` call is made. -/
lemma execPhase_noReport_of_not_embedded (env : RunEnv) (i : ActionInputs)
    (tr : TriggerTestsResponse)
    (h : (tr.run_locally && decide (0 < (tr.scripts.getD []).length)) = false) :
    countEvent (execPhase env i tr).1 isReportCall = 0 := by
  unfold execPhase
  rw [h]
  simp only [Bool.false_eq_true, if_false]
  split
  · simp [countEvent, isReportCall]
  · cases env.waitR <;> simp [countEvent]

/-- An error escaping the try block carries no `setFailed` and no cancel
event in the trace accumulated so far. -/
lemma runBody_error_counts (env : RunEnv) (evs : List Event) (x : Option String)
    (h : runBody env = (evs, .error x)) :
    countEvent evs isSetFailed = 0 ∧ countEvent evs isCancelCall = 0 := by
  unfold runBody at h
  cases hgi : getInputs env.raw with
  | error e =>
    rw [hgi] at h
    try dsimp only at h
    injection h with h1 h2; subst h1; simp [countEvent]
  | ok inputs =>
    rw [hgi] at h
    try dsimp only at h
    cases hv : env.validateOk with
    | error e =>
      rw [hv] at h
      try dsimp only at h
      injection h with h1 h2; subst h1; simp [countEvent]
    | ok b =>
      rw [hv] at h
      try dsimp only at h
      cases b with
      | false =>
        injection h with h1 h2; subst h1; simp [countEvent]
      | true =>
        cases hrp : resolvePid env inputs with
        | error e =>
          rw [hrp] at h
          try dsimp only at h
          injection h with h1 h2; subst h1; simp [countEvent]
        | ok pid =>
          rw [hrp] at h
          try dsimp only at h
          by_cases hm : inputs.mode = "seed"
          · rw [if_pos hm] at h
            cases hs : env.seedR with
            | error e =>
              rw [hs] at h
              try dsimp only at h
              injection h with h1 h2; subst h1; simp [countEvent]
            | ok s =>
              rw [hs] at h
              try dsimp only at h
              injection h with h1 h2; simp at h2
          · rw [if_neg hm] at h
            cases ht : env.triggerR with
            | error e =>
              rw [ht] at h
              try dsimp only at h
              injection h with h1 h2; subst h1; simp [countEvent]
            | ok tr =>
              rw [ht] at h
              try dsimp only at h
              rcases hep : execPhase env inputs tr with ⟨evs1, r1⟩
              rw [hep] at h
              try dsimp only at h
              cases r1 with
              | error e =>
                injection h with h1 h2; subst h1
                have hc := execPhase_noSetFailed_noCancel env inputs tr
                rw [hep] at hc
                exact hc
              | ok r =>
                dsimp only at h
                split at h
                · injection h with h1 h2; simp at h2
                · injection h with h1 h2; subst h1
                  have hc := execPhase_noSetFailed_noCancel env inputs tr
                  rw [hep] at hc
                  simp only [countEvent, List.countP_append] at hc ⊢
                  simp [hc.1, hc.2, isSetFailed, isCancelCall]

/-- The try block of `run` never emits a cancel event itself. -/
lemma runBody_no_cancel (env : RunEnv) :
    countEvent (runBody env).1 isCancelCall = 0 := by
  unfold runBody
  cases hgi : getInputs env.raw with
  | error e => simp [hgi, countEvent]
  | ok inputs =>
    cases hv : env.validateOk with
    | error e => simp [hgi, hv, countEvent]
    | ok b =>
      cases b with
      | false => simp [hgi, hv, countEvent]
      | true =>
        cases hrp : resolvePid env inputs with
        | error e => simp [hgi, hv, hrp, countEvent]
        | ok pid =>
          by_cases hm : inputs.mode = "seed"
          · cases hs : env.seedR with
            | error e => simp [hgi, hv, hrp, hm, hs, countEvent]
            | ok s =>
              by_cases hz : s.tests_created = 0 ∧ s.skipped = 0 <;>
                simp [hgi, hv, hrp, hm, hs, hz, countEvent, isCancelCall]
          · cases ht : env.triggerR with
            | error e => simp [hgi, hv, hrp, hm, ht, countEvent]
            | ok tr =>
              rcases hep : execPhase env inputs tr with ⟨evs1, r1⟩
              have hc := (execPhase_noSetFailed_noCancel env inputs tr).2
              rw [hep] at hc
              simp only [countEvent] at hc
              cases r1 with
              | error e =>
                simp [hgi, hv, hrp, hm, ht, hep, countEvent, hc]
              | ok r =>
                by_cases hj : env.jobSummaryOk <;>
                by_cases hpc : inputs.postPrComment = true <;>
                by_cases hvd : (executionFailed r && inputs.failOnTestFailure) = true <;>
                  simp [hgi, hv, hrp, hm, ht, hep, hj, hpc, hvd, countEvent,
                    List.countP_append, List.countP_cons, isCancelCall, verdictEvents, hc]

/-- The try block never reads the cancel oracle. -/
lemma runBody_cancelOk_irrel (env : RunEnv) (b : Bool) :
    runBody { env with cancelOk := b } = runBody env := rfl

/-- Count, nonnegativity and status-verdict relation of a repository-files
result (lines 523-537). -/
lemma repoResults_sum (eid : String) (i : ActionInputs) (files : List String)
    (ec : Nat) (d : ℚ) :
    (repoResults eid i files ec d).passed_tests + (repoResults eid i files ec d).failed_tests +
        (repoResults eid i files ec d).skipped_tests = (repoResults eid i files ec d).total_tests ∧
    0 ≤ (repoResults eid i files ec d).skipped_tests ∧
    ((repoResults eid i files ec d).status = "completed" ↔
      (repoResults eid i files ec d).result = "passed") := by
  by_cases h : ec = 0 <;> simp [repoResults, h]

/-- Parsed entries of a suite are classified `passed` exactly when the spec's
own `ok` flag is set. -/
lemma countP_specEntry_passed (scripts : List EmbeddedScript) (su : RawSuite) :
    List.countP (fun r => r.status == "passed") (su.specs.map (specEntry scripts su)) =
      List.countP (fun sp => sp.ok) su.specs := by
  rw [List.countP_map]
  apply List.countP_congr
  intro sp _
  cases hsp : sp.ok <;> simp [specEntry, hsp, Function.comp]

/-- Parsed entries of a suite are classified `failed` exactly when the spec's
own `ok` flag is cleared. -/
lemma countP_specEntry_failed (scripts : List EmbeddedScript) (su : RawSuite) :
    List.countP (fun r => r.status == "failed") (su.specs.map (specEntry scripts su)) =
      List.countP (fun sp => !sp.ok) su.specs := by
  rw [List.countP_map]
  apply List.countP_congr
  intro sp _
  cases hsp : sp.ok <;> simp [specEntry, hsp, Function.comp]

/-- The derived passed and failed counts equal the numbers of `ok` and
non-`ok` specs across all suites, and every spec yields one entry. -/
lemma countStatus_parseReport (raw : RawReport) (scripts : List EmbeddedScript) :
    countStatus (parseReport raw scripts) "passed" =
      List.countP (fun sp => sp.ok) ((raw.suites.map (fun su => su.specs)).flatten) ∧
    countStatus (parseReport raw scripts) "failed" =
      List.countP (fun sp => !sp.ok) ((raw.suites.map (fun su => su.specs)).flatten) ∧
    (parseReport raw scripts).length =
      ((raw.suites.map (fun su => su.specs)).flatten).length := by
  obtain ⟨suites⟩ := raw
  simp only [parseReport, countStatus]
  induction suites with
  | nil => exact ⟨rfl, rfl, rfl⟩
  | cons su l ih =>
    simp only [List.map_cons, List.flatten_cons, List.countP_append, List.length_append,
      ih.1, ih.2.1, ih.2.2, countP_specEntry_passed, countP_specEntry_failed,
      List.length_map]
    simp

/-- On a source with no annotation match the annotation pass is the
identity, for every fuel value. -/
lemma replaceAnnotsAux_of_noMatch {l : List Char} (h : hasAnnotMatch l = false) :
    ∀ n, replaceAnnotsAux n l = l := by
  induction l with
  | nil => intro n; cases n <;> rfl
  | cons c rest ih =>
    intro n
    cases n with
    | zero => rfl
    | succ m =>
      cases hm : matchAnnot (c :: rest) with
      | some v => rw [hasAnnotMatch, hm] at h; simp at h
      | none =>
        rw [hasAnnotMatch, hm] at h
        simp only [Option.isSome_none, Bool.false_or] at h
        simp only [replaceAnnotsAux, hm]
        rw [ih h m]

/-- On a source with no type-only-import match the import pass is the
identity, for every fuel value. -/
lemma stripImportTypesAux_of_noMatch {l : List Char} (h : hasImportMatch l = false) :
    ∀ n, stripImportTypesAux n l = l := by
  induction l with
  | nil => intro n; cases n <;> rfl
  | cons c rest ih =>
    intro n
    cases n with
    | zero => rfl
    | succ m =>
      cases hm : matchImportType (c :: rest) with
      | some v => rw [hasImportMatch, hm] at h; simp at h
      | none =>
        rw [hasImportMatch, hm] at h
        simp only [Option.isSome_none, Bool.false_or] at h
        simp only [stripImportTypesAux, hm]
        rw [ih h m]

/-- Claim C1, counterexample: with one embedded script whose file reports two
passing specs, the produced canonical result has counts
(total, passed, failed, skipped) = (1, 2, 0, 0), so
`passed + failed + skipped = 2 ≠ 1 = total`: the claimed sum invariant fails
on a result the embedded-script run produces. -/
theorem counts_sum_counterexample :
    (runTestsLocallyModel trOneScript envTwoSpecs sampleInputs).2.toOption.map countsOf =
      some (1, 2, 0, 0) ∧
    ¬ ((2 : Int) + 0 + 0 = 1) := ⟨by decide, by decide⟩

/-- Claim C1 (amended): in every canonical result the program produces,
`skipped_tests ≥ 0` always holds; `passed + failed + skipped = total` holds
for every repository-files result and every exit-code-fallback result, and
for a report-derived embedded-script result exactly when the report did not
yield more entries than scripts (`passed + failed ≤ total`) — the clamp of
the subtraction breaks the sum when the report holds more specs than
scripts. -/
theorem counts_sum_clamped :
    (∀ (tr : TriggerTestsResponse) (env : LocalEnv) (i : ActionInputs)
        (res : TestExecutionResults),
      (runTestsLocallyModel tr env i).2 = .ok res →
      0 ≤ res.skipped_tests ∧
      (res.passed_tests + res.failed_tests ≤ res.total_tests →
        res.passed_tests + res.failed_tests + res.skipped_tests = res.total_tests) ∧
      (derivedResults tr env = [] →
        res.passed_tests + res.failed_tests + res.skipped_tests = res.total_tests)) ∧
    (∀ (eid : String) (i : ActionInputs) (files : List String) (ec : Nat) (d : ℚ),
      (repoResults eid i files ec d).passed_tests +
          (repoResults eid i files ec d).failed_tests +
          (repoResults eid i files ec d).skipped_tests =
        (repoResults eid i files ec d).total_tests ∧
      0 ≤ (repoResults eid i files ec d).skipped_tests) := by
  constructor
  · intro tr env i res h
    obtain ⟨hs, -, -⟩ := runLocal_ok_shape h
    have hsum : res.passed_tests + res.failed_tests ≤ res.total_tests →
        res.passed_tests + res.failed_tests + res.skipped_tests = res.total_tests := by
      intro hle
      rw [hs, max_eq_left (by omega)]
      omega
    refine ⟨?_, hsum, ?_⟩
    · rw [hs]; exact le_max_right _ _
    · intro hd
      obtain ⟨ht, hp0, hpn⟩ := runLocal_ok_fallback_counts hd h
      by_cases hec : (if env.execThrows then 1 else env.execExitCode) = 0
      · obtain ⟨hp, hf, -⟩ := hp0 hec
        exact hsum (by omega)
      · obtain ⟨hp, hf, -⟩ := hpn hec
        exact hsum (by omega)
  · intro eid i files ec d
    exact ⟨(repoResults_sum eid i files ec d).1, (repoResults_sum eid i files ec d).2.1⟩

/-- Claim C1, witness: the zero-script run in `envZero` yields `resZero`,
for which the amended theorem gives nonnegative skipped count and the sum
invariant. -/
theorem counts_sum_clamped_witness :
    (runTestsLocallyModel trNoScripts envZero sampleInputs).2 = .ok resZero ∧
    0 ≤ resZero.skipped_tests ∧
    resZero.passed_tests + resZero.failed_tests + resZero.skipped_tests =
      resZero.total_tests :=
  ⟨by decide,
   (counts_sum_clamped.1 trNoScripts envZero sampleInputs resZero (by decide)).1,
   (counts_sum_clamped.1 trNoScripts envZero sampleInputs resZero (by decide)).2.2
     (by decide)⟩

/-- Claim C2, counterexample: the repository-files path with an empty (but
present, hence truthy) file list and exit code 0 produces a canonical result
with verdict `passed` and status `completed` while `passed_tests = 0`,
refuting `result = passed ↔ passed_tests > 0 ∧ failed_tests = 0` for
`total_tests = 0`. -/
theorem verdict_rule_counterexample :
    (execPhase runEnvRepoEmpty sampleInputs trRepoEmpty).2.toOption.map verdictOf =
      some ("passed", "completed") ∧
    (execPhase runEnvRepoEmpty sampleInputs trRepoEmpty).2.toOption.map countsOf =
      some (0, 0, 0, 0) ∧
    ¬ ((0 : Int) < 0) := ⟨by decide, by decide, by decide⟩

/-- Claim C2 (amended): `result = passed ↔ passed_tests > 0 ∧
failed_tests = 0` holds for every embedded-script result (all count
combinations, including `total_tests = 0`), and for repository-files
results whenever the file list is nonempty (with an empty list and exit
code 0 the repo result is `passed` with `passed_tests = 0`); `status =
completed ↔ result = passed` holds for every produced result. -/
theorem verdict_rule :
    (∀ (tr : TriggerTestsResponse) (env : LocalEnv) (i : ActionInputs)
        (res : TestExecutionResults),
      (runTestsLocallyModel tr env i).2 = .ok res →
      (res.result = "passed" ↔ 0 < res.passed_tests ∧ res.failed_tests = 0) ∧
      (res.status = "completed" ↔ res.result = "passed")) ∧
    (∀ (eid : String) (i : ActionInputs) (files : List String) (ec : Nat) (d : ℚ),
      ((repoResults eid i files ec d).status = "completed" ↔
        (repoResults eid i files ec d).result = "passed") ∧
      (0 < files.length →
        ((repoResults eid i files ec d).result = "passed" ↔
          0 < (repoResults eid i files ec d).passed_tests ∧
            (repoResults eid i files ec d).failed_tests = 0))) := by
  constructor
  · intro tr env i res h
    obtain ⟨-, hr, hst⟩ := runLocal_ok_shape h
    constructor
    · rw [hr]
      by_cases hc : 0 < res.passed_tests ∧ res.failed_tests = 0 <;> simp [hc]
    · rw [hst]
      by_cases hc : res.result = "passed" <;> simp [hc]
  · intro eid i files ec d
    constructor
    · exact (repoResults_sum eid i files ec d).2.2
    · intro hlen
      by_cases hec : ec = 0 <;> simp [repoResults, hec, hlen, Int.natCast_pos]

/-- Claim C2, witness: the verdict rule instantiated at the zero-script
embedded result and at a one-file repository result. -/
theorem verdict_rule_witness :
    ((resZero.result = "passed" ↔ 0 < resZero.passed_tests ∧ resZero.failed_tests = 0) ∧
      (resZero.status = "completed" ↔ resZero.result = "passed")) ∧
    ((repoResults "e" sampleInputs ["a.spec.js"] 0 0).result = "passed" ↔
      0 < (repoResults "e" sampleInputs ["a.spec.js"] 0 0).passed_tests ∧
        (repoResults "e" sampleInputs ["a.spec.js"] 0 0).failed_tests = 0) :=
  ⟨verdict_rule.1 trNoScripts envZero sampleInputs resZero (by decide),
   (verdict_rule.2 "e" sampleInputs ["a.spec.js"] 0 0).2 (by decide)⟩

/-- Claim C3, counterexample: when `npm install` throws, the run aborts with
the error and the trace holds no sandbox-removal attempt at all — the
temporary directory is not removed on this exit path. -/
theorem sandbox_cleanup_counterexample :
    (runTestsLocallyModel trOneScript envNpmFails sampleInputs).2 = .error () ∧
    countEvent (runTestsLocallyModel trOneScript envNpmFails sampleInputs).1
      isRmAttempt = 0 :=
  ⟨by decide, by decide⟩

/-- Claim C3 (amended): on every exit path that survives the toolchain and
browser installs — success, failing tests, subprocess throw, and even a
failing final `reportResults` call — exactly one sandbox-removal attempt is
made, and a failure of the removal itself is swallowed (the run's outcome
does not depend on it); an error thrown during installation, however,
propagates without any removal attempt. -/
theorem sandbox_cleanup (tr : TriggerTestsResponse) (env : LocalEnv)
    (i : ActionInputs) (h1 : env.npmInstallOk = true) (h2 : env.pwInstallOk = true) :
    countEvent (runTestsLocallyModel tr env i).1 isRmAttempt = 1 ∧
    (∀ b, (runTestsLocallyModel tr { env with rmOk := b } i).2 =
      (runTestsLocallyModel tr env i).2) :=
  ⟨(runLocal_trace_installOk h1 h2).1, fun b => runLocal_result_rmOk_irrel tr env i b⟩

/-- Claim C3, witness: the three-script run with successful installs makes
exactly one removal attempt. -/
theorem sandbox_cleanup_witness :
    envThree.npmInstallOk = true ∧ envThree.pwInstallOk = true ∧
    countEvent (runTestsLocallyModel trThreeScripts envThree sampleInputs).1
      isRmAttempt = 1 :=
  ⟨rfl, rfl, (sandbox_cleanup trThreeScripts envThree sampleInputs rfl rfl).1⟩

/-- Claim C4: whenever zero individual results were derived from the report
(absent, unparsable, or parsed but empty), the exit-code fallback runs: with
effective exit code 0 all N scripts are marked passed with `failed_tests = 0`,
each assigned duration `total_duration / N`; with a nonzero exit code all N
are marked failed with the generic message and the same equal share. -/
theorem fallback_classification (tr : TriggerTestsResponse) (env : LocalEnv)
    (i : ActionInputs)
    (h1 : env.npmInstallOk = true) (h2 : env.pwInstallOk = true)
    (h3 : env.reportResultsOk = true) (hd : derivedResults tr env = []) :
    ∃ res, (runTestsLocallyModel tr env i).2 = .ok res ∧
      res.total_tests = ((tr.scripts.getD []).length : Int) ∧
      (((if env.execThrows then 1 else env.execExitCode) = 0) →
        res.passed_tests = res.total_tests ∧ res.failed_tests = 0 ∧
        res.tests = (tr.scripts.getD []).map (fun s =>
          { test_id := s.id, test_name := s.name, status := "passed",
            duration_seconds := env.durationSeconds / ((tr.scripts.getD []).length : ℚ),
            error_message := none })) ∧
      (((if env.execThrows then 1 else env.execExitCode) ≠ 0) →
        res.passed_tests = 0 ∧ res.failed_tests = res.total_tests ∧
        res.tests = (tr.scripts.getD []).map (fun s =>
          { test_id := s.id, test_name := s.name, status := "failed",
            duration_seconds := env.durationSeconds / ((tr.scripts.getD []).length : ℚ),
            error_message := some "Test execution failed" })) := by
  obtain ⟨res, hres⟩ := runLocal_ok_exists tr env i h1 h2 h3
  obtain ⟨ht, hp0, hpn⟩ := runLocal_ok_fallback_counts hd hres
  refine ⟨res, hres, ht, fun hec => ?_, fun hec => ?_⟩
  · obtain ⟨hp, hf, hts⟩ := hp0 hec
    refine ⟨hp, hf, ?_⟩
    rw [hts]
    simp [fallbackResults, hec]
  · obtain ⟨hp, hf, hts⟩ := hpn hec
    refine ⟨hp, hf, ?_⟩
    rw [hts]
    simp [fallbackResults, hec]

/-- Claim C4, witness: two scripts with an absent report and exit code 0
yield a completing fallback run. -/
theorem fallback_classification_witness :
    derivedResults trTwoScripts envNoReportPass = [] ∧
    envNoReportPass.npmInstallOk = true ∧
    ∃ res, (runTestsLocallyModel trTwoScripts envNoReportPass sampleInputs).2 = .ok res :=
  ⟨by decide, rfl,
   (fallback_classification trTwoScripts envNoReportPass sampleInputs rfl rfl rfl
      (by decide)).elim (fun res hr => ⟨res, hr.1⟩)⟩

/-- Claim C5, counterexample: a repository-test-files local run (trigger
response with `run_locally` and a file list) completes without the catch
clause firing, yet its whole trace holds zero `reportResults` calls. -/
theorem report_results_once_counterexample :
    (run runEnvRepoEmpty).2 = false ∧
    runEnvRepoEmpty.triggerR = .ok trRepoEmpty ∧
    trRepoEmpty.run_locally = true ∧
    countEvent (run runEnvRepoEmpty).1 isReportCall = 0 :=
  ⟨by decide, by decide, by decide, by decide⟩

/-- Claim C5 (amended): every embedded-script local run that completes calls
`reportResults` exactly once; every other execution path — including the
repository-test-files local run — makes no `reportResults` call at all. -/
theorem report_results_once :
    (∀ (tr : TriggerTestsResponse) (env : LocalEnv) (i : ActionInputs)
        (res : TestExecutionResults),
      (runTestsLocallyModel tr env i).2 = .ok res →
      countEvent (runTestsLocallyModel tr env i).1 isReportCall = 1) ∧
    (∀ (env : RunEnv) (i : ActionInputs) (tr : TriggerTestsResponse),
      (tr.run_locally && decide (0 < (tr.scripts.getD []).length)) = false →
      countEvent (execPhase env i tr).1 isReportCall = 0) := by
  constructor
  · intro tr env i res h
    exact (runLocal_trace_installOk (runLocal_ok_installs h).1
      (runLocal_ok_installs h).2).2
  · intro env i tr h
    exact execPhase_noReport_of_not_embedded env i tr h

/-- Claim C5, witness: the zero-script embedded run reports exactly once;
the repository-files path reports zero times. -/
theorem report_results_once_witness :
    ((runTestsLocallyModel trNoScripts envZero sampleInputs).2 = .ok resZero ∧
      countEvent (runTestsLocallyModel trNoScripts envZero sampleInputs).1
        isReportCall = 1) ∧
    ((trRepoEmpty.run_locally && decide (0 < (trRepoEmpty.scripts.getD []).length)) = false ∧
      countEvent (execPhase runEnvRepoEmpty sampleInputs trRepoEmpty).1 isReportCall = 0) :=
  ⟨⟨by decide, report_results_once.1 trNoScripts envZero sampleInputs resZero (by decide)⟩,
   ⟨by decide, report_results_once.2 runEnvRepoEmpty sampleInputs trRepoEmpty (by decide)⟩⟩

/-- Claim C6: each reported spec is classified solely by its own `ok` flag
(derived passed and failed counts equal the numbers of `ok` and non-`ok`
specs, one entry per spec); concretely, three scripts with a report of three
specs (two `ok`, one not) yield counts (3, 2, 1, 0), each entry mapped back
to its originating script by the generated file name. -/
theorem report_classification :
    (∀ (raw : RawReport) (scripts : List EmbeddedScript),
      countStatus (parseReport raw scripts) "passed" =
        List.countP (fun sp => sp.ok) ((raw.suites.map (fun su => su.specs)).flatten) ∧
      countStatus (parseReport raw scripts) "failed" =
        List.countP (fun sp => !sp.ok) ((raw.suites.map (fun su => su.specs)).flatten) ∧
      (parseReport raw scripts).length =
        ((raw.suites.map (fun su => su.specs)).flatten).length) ∧
    ((runTestsLocallyModel trThreeScripts envThree sampleInputs).2.toOption.map countsOf =
      some (3, 2, 1, 0) ∧
    (runTestsLocallyModel trThreeScripts envThree sampleInputs).2.toOption.map testsSummary =
      some [(1, "first", "passed", none), (2, "second", "failed", some "boom"),
            (3, "third", "passed", none)]) :=
  ⟨countStatus_parseReport, by decide, by decide⟩

/-- Claim C7, counterexample: sanitization is not idempotent — on
`x:Page:Page` the first pass strips the left annotation and uncovers a new
one, which only a second pass strips. -/
theorem sanitize_idempotent_counterexample :
    sanitizeScript "x:Page:Page" = "x:Page" ∧
    sanitizeScript (sanitizeScript "x:Page:Page") = "x" ∧
    ¬ (sanitizeScript (sanitizeScript "x:Page:Page") = sanitizeScript "x:Page:Page") :=
  ⟨by decide, by decide, by decide⟩

/-- Claim C7 (amended): re-applying the transform changes nothing whenever
its first output contains no remaining occurrence of either pattern; it is
not idempotent in general, because removing one annotation can place a
parameter name directly before a second `: Type` occurrence and create a
fresh match. -/
theorem sanitize_idempotent_on_stripped (s : String)
    (h1 : hasImportMatch (sanitizeScript s).toList = false)
    (h2 : hasAnnotMatch (sanitizeScript s).toList = false) :
    sanitizeScript (sanitizeScript s) = sanitizeScript s := by
  show String.mk (replaceAnnots (stripImportTypes (sanitizeScript s).toList)) =
    sanitizeScript s
  rw [stripImportTypes, stripImportTypesAux_of_noMatch h1, replaceAnnots,
    replaceAnnotsAux_of_noMatch h2]
  exact stringMk_toList _

/-- Claim C7, witness: `a:Page b` strips to `a b`, which has no residual
match, so a second application is the identity on it. -/
theorem sanitize_idempotent_on_stripped_witness :
    hasImportMatch (sanitizeScript "a:Page b").toList = false ∧
    hasAnnotMatch (sanitizeScript "a:Page b").toList = false ∧
    sanitizeScript (sanitizeScript "a:Page b") = sanitizeScript "a:Page b" :=
  ⟨by decide, by decide, sanitize_idempotent_on_stripped "a:Page b" (by decide) (by decide)⟩

/-- Claim C8: if an error escapes the try block after an execution id became
known (the error value carries it), exactly one cancel call and exactly one
`setFailed` appear in the final trace; if the error precedes the id, no
cancel call is made and still exactly one `setFailed` surfaces; a completed
run makes no cancel call; and a failing cancel call changes neither the
event counts nor the outcome — its failure is ignored. -/
theorem cancel_on_error (env : RunEnv) :
    (∀ (evs : List Event) (eid : String),
      runBody env = (evs, .error (some eid)) →
      countEvent (run env).1 isCancelCall = 1 ∧
      countEvent (run env).1 isSetFailed = 1) ∧
    (∀ evs : List Event, runBody env = (evs, .error none) →
      countEvent (run env).1 isCancelCall = 0 ∧
      countEvent (run env).1 isSetFailed = 1) ∧
    (∀ (evs : List Event) (u : Unit), runBody env = (evs, .ok u) →
      countEvent (run env).1 isCancelCall = 0) ∧
    (∀ b : Bool,
      countEvent (run { env with cancelOk := b }).1 isCancelCall =
        countEvent (run env).1 isCancelCall ∧
      countEvent (run { env with cancelOk := b }).1 isSetFailed =
        countEvent (run env).1 isSetFailed ∧
      (run { env with cancelOk := b }).2 = (run env).2) := by
  refine ⟨?_, ?_, ?_, ?_⟩
  · intro evs eid h
    have hc := runBody_error_counts env evs (some eid) h
    simp only [countEvent] at hc ⊢
    simp [run, h, List.countP_append, List.countP_cons, isCancelCall, isSetFailed,
      hc.1, hc.2]
  · intro evs h
    have hc := runBody_error_counts env evs none h
    simp only [countEvent] at hc ⊢
    simp [run, h, List.countP_append, List.countP_cons, isCancelCall, isSetFailed,
      hc.1, hc.2]
  · intro evs u h
    have hc := runBody_no_cancel env
    rw [h] at hc
    simp only [countEvent] at hc ⊢
    simp [run, h, hc]
  · intro b
    rcases hb : runBody env with ⟨evs, r⟩
    have hb' : runBody { env with cancelOk := b } = (evs, r) := by
      rw [runBody_cancelOk_irrel, hb]
    cases r with
    | ok u => simp [run, hb, hb']
    | error x =>
      cases x with
      | none => simp [run, hb, hb']
      | some eid =>
        simp [run, hb, hb', countEvent, List.countP_append, List.countP_cons,
          isCancelCall, isSetFailed]

/-- Claim C8, witness: a polling failure after the trigger yields one cancel
and one `setFailed`; a validation failure before any id yields no cancel
and one `setFailed`. -/
theorem cancel_on_error_witness :
    runBody runEnvWaitFails = ([], .error (some "e5")) ∧
    countEvent (run runEnvWaitFails).1 isCancelCall = 1 ∧
    countEvent (run runEnvWaitFails).1 isSetFailed = 1 ∧
    runBody runEnvValidateFails = ([], .error none) ∧
    countEvent (run runEnvValidateFails).1 isCancelCall = 0 :=
  ⟨by decide,
   ((cancel_on_error runEnvWaitFails).1 [] "e5" (by decide)).1,
   ((cancel_on_error runEnvWaitFails).1 [] "e5" (by decide)).2,
   by decide,
   ((cancel_on_error runEnvValidateFails).2.1 [] (by decide)).1⟩

/-- Claim C9: the generated runner configuration always sets `headless` to
the literal `true`; changing the parsed headless flag changes neither the
configuration nor any part of the local run; and the raw `headless` input
string influences nothing in `getInputs` except the `headless` field
itself. -/
theorem headless_ignored_locally (i : ActionInputs) (b : Bool) (raw : RawInputs)
    (s : String) :
    (playwrightConfig i).use.headless = true ∧
    playwrightConfig { i with headless := b } = playwrightConfig i ∧
    (∀ (tr : TriggerTestsResponse) (env : LocalEnv),
      runTestsLocallyModel tr env { i with headless := b } =
        runTestsLocallyModel tr env i) ∧
    (getInputs { raw with headless := s }).map (fun j => { j with headless := true }) =
      (getInputs raw).map (fun j => { j with headless := true }) := by
  refine ⟨rfl, rfl, fun tr env => rfl, ?_⟩
  by_cases h : raw.apiKey = "" <;> simp [getInputs, h, Except.map]

/-- Claim C10: with fail-on-test-failure enabled, any final result with
`passed_tests = 0` and `total_tests > 0` marks the execution failed and
fires `setFailed`, regardless of its `result` and `status` fields. -/
theorem fail_on_zero_passed (i : ActionInputs) (r : TestExecutionResults)
    (hf : i.failOnTestFailure = true) (hp : r.passed_tests = 0)
    (ht : 0 < r.total_tests) :
    executionFailed r = true ∧ verdictEvents i r = [Event.setFailed] := by
  have he : executionFailed r = true := by
    simp [executionFailed, hp, ht]
  exact ⟨he, by simp [verdictEvents, he, hf]⟩

/-- Claim C10, witness: a result with `result = passed`, `status =
completed`, zero passed out of two total still fires `setFailed`. -/
theorem fail_on_zero_passed_witness :
    sampleInputs.failOnTestFailure = true ∧ resultPassedZero.passed_tests = 0 ∧
    (0 : Int) < resultPassedZero.total_tests ∧
    resultPassedZero.result = "passed" ∧ resultPassedZero.status = "completed" ∧
    verdictEvents sampleInputs resultPassedZero = [Event.setFailed] :=
  ⟨by decide, by decide, by decide, by decide, by decide,
   (fail_on_zero_passed sampleInputs resultPassedZero (by decide) (by decide)
     (by decide)).2⟩
